import Mathlib

/-!
Formal model of the request-processing pipeline in `src/gateway/app.py`
of the Moodle AI quiz-generation gateway.  Python strings are modelled
as `List Char`, JSON values as an inductive type, the text helpers as
total Lean functions, and the control flow of each HTTP handler as functions
from the request data and an upstream-reply oracle to the list of
upstream calls issued and the response produced.
-/

/- ===================== definitions ===================== -/

/-- Whitespace characters recognised by Python `str.strip` (for ASCII
text) and by the regex class for whitespace: space, tab, newline,
carriage return, vertical tab (code 11) and form feed (code 12). -/
def is_space (c : Char) : Bool :=
  c.toNat == 32 || c.toNat == 9 || c.toNat == 10 || c.toNat == 13 ||
  c.toNat == 11 || c.toNat == 12

/-- Drops trailing whitespace, the second half of Python `str.strip`. -/
def drop_trailing_spaces (cs : List Char) : List Char :=
  (cs.reverse.dropWhile is_space).reverse

/-- Python `str.strip()` on ASCII text. -/
def trim_chars (cs : List Char) : List Char :=
  drop_trailing_spaces (cs.dropWhile is_space)

/-- Embeds `_gateway_allowed_keys` (app.py lines 55-66): split the
`GATEWAY_API_KEYS` value on commas, strip each piece and keep the
non-empty ones, then add the stripped `GATEWAY_API_KEY` value when it is
non-empty.  The Python set is modelled as a list; only membership
matters to the claims. -/
def gateway_allowed_keys (rawMulti single : List Char) : List (List Char) :=
  let multi := ((rawMulti.splitOn ',').map trim_chars).filter fun t => !t.isEmpty
  let s := trim_chars single
  if s.isEmpty then multi else multi ++ [s]

/-- Embeds `_gateway_extract_bearer_token` (lines 69-74): strip the
header, require a case-insensitive "bearer " scheme, and strip the
remainder; otherwise the token is empty. -/
def gateway_extract_bearer_token (header : List Char) : List Char :=
  let auth := trim_chars header
  if ("bearer ".toList).isPrefixOf (auth.map Char.toLower) then
    trim_chars (auth.drop 7)
  else
    []

/-- Outcome of the authorization gate: `ok` lets the handler proceed,
`unauthorized` is the 401 response, `notConfigured` the 503 response. -/
inductive AuthCheck where
  | ok
  | unauthorized
  | notConfigured
deriving DecidableEq

/-- Embeds `_gateway_require_auth` (lines 77-89): 503 when no keys are
configured, 401 when the token is empty or not an accepted key. -/
def gateway_require_auth (allowed : List (List Char)) (header : List Char) :
    AuthCheck :=
  if allowed = [] then .notConfigured
  else
    let token := gateway_extract_bearer_token header
    if token = [] ∨ token ∉ allowed then .unauthorized else .ok

/-- Cumulative walk of `_select_from_distribution` (lines 996-1001):
return the first label whose running total reaches the draw. -/
def select_walk (dist : List (String × Int)) (rand cumulative : Int) :
    Option String :=
  match dist with
  | [] => none
  | (level, percentage) :: rest =>
    if rand ≤ cumulative + percentage then some level
    else select_walk rest rand (cumulative + percentage)

/-- Embeds `_select_from_distribution` (lines 993-1002).  The uniform
draw `random.randint(1, 100)` is injected as the `rand` argument (the
spec itself asks for an injectable random source).  The final
`list(distribution.keys())[0]` fallback raises `IndexError` on an empty
mapping; that exception is modelled by `none`. -/
def select_from_distribution (dist : List (String × Int)) (rand : Int) :
    Option String :=
  match select_walk dist rand 0 with
  | some level => some level
  | none => (dist.head?).map Prod.fst

/-- Content ceiling of `_build_topic_extraction_prompt` (lines 775-778):
text longer than 150000 characters is cut to 150000; no marker is
appended. -/
def topic_content_truncate (content : List Char) : List Char :=
  if content.length > 150000 then content.take 150000 else content

/-- Content ceiling of `_build_question_generation_prompt` (lines
854-857): text longer than 5000 characters is cut to 5000 and the
marker "..." is appended. -/
def question_content_truncate (topicContent : List Char) : List Char :=
  if topicContent.length > 5000 then topicContent.take 5000 ++ "...".toList
  else topicContent

/-- Python substring membership (`pat in s`): some tail of `s` starts
with `pat`. -/
def infix_of (pat : List Char) : List Char → Bool
  | [] => pat.isEmpty
  | c :: rest => pat.isPrefixOf (c :: rest) || infix_of pat rest

/-- Helper for Python `str.splitlines`: accumulate the current line in
reverse, emitting it at each newline; text ending in a newline produces
no trailing empty piece. -/
def splitlines_go (cur : List Char) : List Char → List (List Char)
  | [] => [cur.reverse]
  | c :: rest =>
    if c = '\n' then
      match rest with
      | [] => [cur.reverse]
      | _ => cur.reverse :: splitlines_go [] rest
    else splitlines_go (c :: cur) rest

/-- Python `str.splitlines` for newline-separated text (the prompts the
gateway builds use "\n" separators only). -/
def splitlines_nl (cs : List Char) : List (List Char) :=
  match cs with
  | [] => []
  | _ => splitlines_go [] cs

/-- Python `"\n".join`. -/
def join_nl : List (List Char) → List Char
  | [] => []
  | [l] => l
  | l :: l2 :: rest => l ++ '\n' :: join_nl (l2 :: rest)

/-- Fuelled scan behind `replace_all`; every step consumes at least one
character, so fuel equal to the length of the text suffices and the
fuel-exhausted branch is never reached from `replace_all`. -/
def replace_fuel (pat repl : List Char) : Nat → List Char → List Char
  | 0, s => s
  | fuel + 1, s =>
    match s with
    | [] => []
    | c :: rest =>
      if pat ≠ [] ∧ pat.isPrefixOf (c :: rest) then
        repl ++ replace_fuel pat repl fuel ((c :: rest).drop pat.length)
      else
        c :: replace_fuel pat repl fuel rest

/-- Python `re.sub` with a literal, case-sensitive pattern: replace the
non-overlapping occurrences left to right. -/
def replace_all (pat repl s : List Char) : List Char :=
  replace_fuel pat repl s.length s

/-- Fuelled scan behind `replace_all_ci`. -/
def replace_fuel_ci (pat repl : List Char) : Nat → List Char → List Char
  | 0, s => s
  | fuel + 1, s =>
    match s with
    | [] => []
    | c :: rest =>
      if pat ≠ [] ∧
          (pat.map Char.toLower).isPrefixOf ((c :: rest).map Char.toLower) then
        repl ++ replace_fuel_ci pat repl fuel ((c :: rest).drop pat.length)
      else
        c :: replace_fuel_ci pat repl fuel rest

/-- Python `re.sub` with a literal pattern under `re.IGNORECASE`. -/
def replace_all_ci (pat repl s : List Char) : List Char :=
  replace_fuel_ci pat repl s.length s

/-- Line-by-line transform of `_soften_prompt` (lines 286-303): drop
override-priority lines, neutralise the no-markdown line, replace
"strict json" phrasing, and apply the must-to-please rewrite exactly as
the code writes it — the Python source uses the raw pattern
`r"\\bmust\\b"`, which as a regex matches the literal characters
backslash b m u s t backslash b, not the word "must" between word
boundaries, and the two substitutions use the same doubled patterns. -/
def soften_lines : List (List Char) → List (List Char)
  | [] => []
  | line :: rest =>
    let lower := line.map Char.toLower
    if infix_of ("override any default guidance".toList) lower then
      soften_lines rest
    else if infix_of ("do not wrap your response".toList) lower then
      ("Return a valid JSON object without markdown code fences.".toList) ::
        soften_lines rest
    else
      let l1 := if infix_of ("strict json".toList) lower then
          replace_all_ci ("STRICT JSON".toList) ("valid JSON".toList) line
        else line
      let l2 := if infix_of ("\\bmust\\b".toList) (l1.map Char.toLower) then
          replace_all ("\\bmust\\b".toList) ("please".toList)
            (replace_all ("\\bMUST\\b".toList) ("Please".toList) l1)
        else l1
      l2 :: soften_lines rest

/-- Embeds `_soften_prompt` (lines 286-303): transform each line and
append the final neutral reminder. -/
def soften_prompt (prompt : List Char) : List Char :=
  join_nl (soften_lines (splitlines_nl prompt) ++
    ["Please return only a valid JSON object.".toList])

/-- Opening and closing curly-bracket characters (codes 123 and 125). -/
def lbrace : Char := Char.ofNat 123

/-- Closing curly bracket. -/
def rbrace : Char := Char.ofNat 125

/-- Single-quote character (code 39), used by the Python repr model. -/
def squote : Char := Char.ofNat 39

/-- JSON values as produced by the Python `json` module for the payloads
this gateway handles; numbers are modelled as integers (no claim depends
on float payload fields). -/
inductive Json where
  | null : Json
  | bool : Bool → Json
  | num : Int → Json
  | str : String → Json
  | arr : List Json → Json
  | obj : List (String × Json) → Json

/-- Decimal digit to its character. -/
def digit_char (d : Nat) : Char :=
  if d = 0 then '0' else if d = 1 then '1' else if d = 2 then '2'
  else if d = 3 then '3' else if d = 4 then '4' else if d = 5 then '5'
  else if d = 6 then '6' else if d = 7 then '7' else if d = 8 then '8'
  else '9'

/-- Decimal digits of a natural number, most significant first. -/
def nat_chars (n : Nat) : List Char :=
  if n = 0 then ['0'] else ((Nat.digits 10 n).map digit_char).reverse

/-- Decimal text of an integer, as Python `str` renders it. -/
def int_chars (i : Int) : List Char :=
  if i < 0 then '-' :: nat_chars i.natAbs else nat_chars i.natAbs

/-- JSON string escaping for the canonical serializer: quote and
backslash are escaped, every other character is emitted raw. -/
def escape_char (c : Char) : List Char :=
  if c = '"' then ['\\', '"']
  else if c = '\\' then ['\\', '\\']
  else [c]

/-- Escape every character of a string body. -/
def escape_chars (cs : List Char) : List Char :=
  (cs.map escape_char).flatten

/-- The serialized null literal. -/
def lit_null : List Char := ['n', 'u', 'l', 'l']

/-- The serialized true literal. -/
def lit_true : List Char := ['t', 'r', 'u', 'e']

/-- The serialized false literal. -/
def lit_false : List Char := ['f', 'a', 'l', 's', 'e']

mutual

/-- Canonical compact serialization of a JSON value. -/
def serialize : Json → List Char
  | .null => lit_null
  | .bool b => if b then lit_true else lit_false
  | .num i => int_chars i
  | .str s => ('"' :: escape_chars s.toList) ++ ['"']
  | .arr xs => ('[' :: ser_items xs) ++ [']']
  | .obj fs => (lbrace :: ser_members fs) ++ [rbrace]

/-- Comma-separated serialization of array items. -/
def ser_items : List Json → List Char
  | [] => []
  | [x] => serialize x
  | x :: y :: t => (serialize x ++ [',']) ++ ser_items (y :: t)

/-- Comma-separated serialization of object members; each member is the
quoted escaped key, a colon, and the serialized value. -/
def ser_members : List (String × Json) → List Char
  | [] => []
  | [(k, v)] => ('"' :: escape_chars k.toList) ++ ('"' :: ':' :: serialize v)
  | (k, v) :: kv2 :: t =>
    ((('"' :: escape_chars k.toList) ++ ('"' :: ':' :: serialize v)) ++
      [',']) ++ ser_members (kv2 :: t)

end

/-- JSON whitespace accepted between tokens by the Python json parser. -/
def is_ws (c : Char) : Bool :=
  c.toNat == 32 || c.toNat == 9 || c.toNat == 10 || c.toNat == 13

/-- Skips JSON whitespace. -/
def skip_ws (cs : List Char) : List Char := cs.dropWhile is_ws

/-- ASCII decimal digit test. -/
def is_digit_char (c : Char) : Bool := 48 ≤ c.toNat && c.toNat ≤ 57

/-- Value of an ASCII decimal digit. -/
def char_digit (c : Char) : Nat := c.toNat - 48

/-- Escape codes accepted inside JSON string literals. -/
def unescape_char (c : Char) : Option Char :=
  if c = '"' then some '"'
  else if c = '\\' then some '\\'
  else if c = '/' then some '/'
  else if c = 'n' then some '\n'
  else if c = 't' then some '\t'
  else if c = 'r' then some '\r'
  else if c = 'b' then some (Char.ofNat 8)
  else if c = 'f' then some (Char.ofNat 12)
  else none

/-- Reads a JSON string body up to the closing quote, returning the
decoded characters and the remaining input. -/
def parse_string_body : List Char → Option (List Char × List Char)
  | [] => none
  | c :: rest =>
    if c = '"' then some ([], rest)
    else if c = '\\' then
      match rest with
      | [] => none
      | e :: rest2 =>
        match unescape_char e, parse_string_body rest2 with
        | some u, some (s, r) => some (u :: s, r)
        | _, _ => none
    else
      match parse_string_body rest with
      | some (s, r) => some (c :: s, r)
      | none => none

/-- Reads a run of decimal digits as a natural number. -/
def parse_nat_digits (cs : List Char) : Option (Nat × List Char) :=
  let ds := cs.takeWhile is_digit_char
  if ds.isEmpty then none
  else some (ds.foldl (fun a c => a * 10 + char_digit c) 0,
             cs.dropWhile is_digit_char)

mutual

/-- Fuelled recursive-descent JSON value parser; fuel one past the input
length always suffices because every recursive step consumes input. -/
def parse_value : Nat → List Char → Option (Json × List Char)
  | 0, _ => none
  | fuel + 1, cs =>
    match skip_ws cs with
    | [] => none
    | c :: rest =>
      if c = 'n' then
        match rest with
        | 'u' :: 'l' :: 'l' :: r => some (.null, r)
        | _ => none
      else if c = 't' then
        match rest with
        | 'r' :: 'u' :: 'e' :: r => some (.bool true, r)
        | _ => none
      else if c = 'f' then
        match rest with
        | 'a' :: 'l' :: 's' :: 'e' :: r => some (.bool false, r)
        | _ => none
      else if c = '"' then
        match parse_string_body rest with
        | some (s, r) => some (.str (String.mk s), r)
        | none => none
      else if c = '-' then
        match parse_nat_digits rest with
        | some (n, r) => some (.num (-(n : Int)), r)
        | none => none
      else if is_digit_char c then
        match parse_nat_digits (c :: rest) with
        | some (n, r) => some (.num (n : Int), r)
        | none => none
      else if c = '[' then
        match parse_arr_items fuel true rest with
        | some (vs, r) => some (.arr vs, r)
        | none => none
      else if c = lbrace then
        match parse_obj_items fuel true rest with
        | some (ms, r) => some (.obj ms, r)
        | none => none
      else none

/-- Parses array items after the opening bracket; `allowClose` permits
an immediate closing bracket (empty array) and is off after a comma. -/
def parse_arr_items : Nat → Bool → List Char → Option (List Json × List Char)
  | 0, _, _ => none
  | fuel + 1, allowClose, cs =>
    match skip_ws cs with
    | [] => none
    | c :: rest =>
      if allowClose ∧ c = ']' then some ([], rest)
      else
        match parse_value fuel (c :: rest) with
        | none => none
        | some (v, r1) =>
          match skip_ws r1 with
          | [] => none
          | d :: r2 =>
            if d = ',' then
              match parse_arr_items fuel false r2 with
              | some (vs, r3) => some (v :: vs, r3)
              | none => none
            else if d = ']' then some ([v], r2)
            else none

/-- Parses object members after the opening bracket; `allowClose`
permits an immediate closing bracket (empty object). -/
def parse_obj_items : Nat → Bool → List Char →
    Option (List (String × Json) × List Char)
  | 0, _, _ => none
  | fuel + 1, allowClose, cs =>
    match skip_ws cs with
    | [] => none
    | c :: rest =>
      if allowClose ∧ c = rbrace then some ([], rest)
      else if c = '"' then
        match parse_string_body rest with
        | none => none
        | some (k, r1) =>
          match skip_ws r1 with
          | ':' :: r2 =>
            match parse_value fuel r2 with
            | none => none
            | some (v, r3) =>
              match skip_ws r3 with
              | [] => none
              | d :: r4 =>
                if d = ',' then
                  match parse_obj_items fuel false r4 with
                  | some (ms, r5) => some ((String.mk k, v) :: ms, r5)
                  | none => none
                else if d = rbrace then some ([(String.mk k, v)], r4)
                else none
          | _ => none
      else none

end

/-- Model of Python `json.loads`: parse one JSON value and require only
whitespace to remain; `none` models `JSONDecodeError`. -/
def json_loads (cs : List Char) : Option Json :=
  match parse_value (cs.length + 1) cs with
  | some (v, r) => if skip_ws r = [] then some v else none
  | none => none

/-- The three-backtick fence marker. -/
def fence_marker : List Char := "```".toList

/-- Leading-fence strip of `_gateway_json_from_text` (line 101): the
anchored regex removes one leading fence, an optional case-insensitive
json tag, and the whitespace after them. -/
def strip_leading_fence (cs : List Char) : List Char :=
  if fence_marker.isPrefixOf cs then
    let r := cs.drop 3
    let r2 := if (r.take 4).map Char.toLower = "json".toList then r.drop 4
      else r
    r2.dropWhile is_space
  else cs

/-- Trailing-fence strip of line 102: the anchored regex removes one
trailing fence and the whitespace just before it. -/
def strip_trailing_fence (cs : List Char) : List Char :=
  if fence_marker.isSuffixOf cs then
    drop_trailing_spaces (cs.take (cs.length - 3))
  else cs

/-- The regex search of line 106 for a brace span: from the leftmost
opening brace through the rightmost closing brace after it. -/
def brace_span (cs : List Char) : Option (List Char) :=
  let after := cs.dropWhile fun c => c != lbrace
  match after with
  | [] => none
  | _ =>
    let rev := after.reverse.dropWhile fun c => c != rbrace
    if rev.isEmpty then none else some rev.reverse

/-- Embeds `_gateway_json_from_text` (lines 92-112): strip, remove
markdown fences, attempt a parse, then attempt the brace span; `none` is
the unparseable signal.  The Python branch for an input that is already
a dict does not arise here because the extractor is applied to the
upstream text content; `none` as input models Python `None`. -/
def gateway_json_from_text : Option (List Char) → Option Json
  | none => none
  | some t =>
    let raw := trim_chars t
    if raw = [] then none
    else
      let raw2 := strip_trailing_fence (strip_leading_fence raw)
      match json_loads raw2 with
      | some v => some v
      | none =>
        match brace_span raw2 with
        | none => none
        | some sub => json_loads sub

/-- Python `dict.get(key, default)` on a parsed JSON object. -/
def jget (fields : List (String × Json)) (key : String) (dflt : Json) :
    Json :=
  match fields.lookup key with
  | some v => v
  | none => dflt

/-- Per-operation normalization of `gateway_grade` (lines 450-478): a
fixed key set per operation, `dict.get` defaults for absent keys; note
that `max_score` defaults to 100, not 0. -/
def normalize_grade (operation : String) (parsed : List (String × Json)) :
    List (String × Json) :=
  if operation = "semantic_similarity" then
    [("matched_concepts", jget parsed "matched_concepts" (Json.arr [])),
     ("partially_matched_concepts",
       jget parsed "partially_matched_concepts" (Json.arr [])),
     ("missing_concepts", jget parsed "missing_concepts" (Json.arr [])),
     ("reasoning", jget parsed "reasoning" (Json.str ""))]
  else if operation = "quiz_summary" then
    [("overall_feedback", jget parsed "overall_feedback" (Json.str "")),
     ("strengths", jget parsed "strengths" (Json.arr [])),
     ("improvements", jget parsed "improvements" (Json.arr []))]
  else if operation = "grade_rubric" then
    [("criteria", jget parsed "criteria" (Json.arr [])),
     ("feedback", jget parsed "feedback" (Json.str ""))]
  else
    [("score", jget parsed "score" (Json.num 0)),
     ("max_score", jget parsed "max_score" (Json.num 100)),
     ("feedback", jget parsed "feedback" (Json.str "")),
     ("criteria", jget parsed "criteria" (Json.arr []))]

mutual

/-- Python `repr` of a JSON value, used by `str()` on non-string values;
container spacing follows Python (", " and ": " separators, single
quotes around strings). -/
def py_repr : Json → List Char
  | .null => "None".toList
  | .bool true => "True".toList
  | .bool false => "False".toList
  | .num i => int_chars i
  | .str s => (squote :: s.toList) ++ [squote]
  | .arr xs => ('[' :: py_repr_items xs) ++ [']']
  | .obj fs => (lbrace :: py_repr_members fs) ++ [rbrace]

/-- Comma-separated repr of list items. -/
def py_repr_items : List Json → List Char
  | [] => []
  | [x] => py_repr x
  | x :: y :: t => (py_repr x ++ ", ".toList) ++ py_repr_items (y :: t)

/-- Comma-separated repr of dict members; each member is the
single-quoted key, a colon and space, and the repr of the value. -/
def py_repr_members : List (String × Json) → List Char
  | [] => []
  | [(k, v)] =>
    ((squote :: k.toList) ++ (squote :: ':' :: ' ' :: [])) ++ py_repr v
  | (k, v) :: kv2 :: t =>
    ((((squote :: k.toList) ++ (squote :: ':' :: ' ' :: [])) ++ py_repr v)
      ++ ", ".toList) ++ py_repr_members (kv2 :: t)

end

/-- Python `str()` applied to a JSON value: strings pass through, other
values render via repr. -/
def python_str : Json → List Char
  | .str s => s.toList
  | v => py_repr v

/-- One question entry built by `generate_questions` (lines 634-643)
from the dict at index `i` of the upstream array: fixed seven keys,
`question_types[i]` with a multichoice default past the end of the list,
and per-field defaults. -/
def question_entry (qtypes : List String) (i : Nat)
    (fields : List (String × Json)) : List (String × Json) :=
  [("questiontext", jget fields "questiontext" (Json.str "")),
   ("questiontype", Json.str (qtypes.getD i "multichoice")),
   ("difficulty", jget fields "difficulty" (Json.str "medium")),
   ("blooms_level", jget fields "blooms_level" (Json.str "understand")),
   ("answers", jget fields "answers" (Json.arr [])),
   ("generalfeedback",
     Json.str (String.mk (python_str (jget fields "generalfeedback"
       (Json.str ""))))),
   ("ai_reasoning", jget fields "ai_reasoning" (Json.str ""))]

/-- The enumerate loop of `generate_questions` (lines 632-643) over the
already-truncated array, carrying the running index: dict elements
produce an entry, any other element is skipped (but still advances the
index). -/
def parse_questions_go (qtypes : List String) :
    Nat → List Json → List (List (String × Json))
  | _, [] => []
  | i, q :: rest =>
    match q with
    | Json.obj fields =>
      question_entry qtypes i fields :: parse_questions_go qtypes (i + 1) rest
    | _ => parse_questions_go qtypes (i + 1) rest

/-- Question-list construction of `generate_questions` (lines 632-643):
truncate the parsed array to `num_questions` (a non-negative count, per
the payload contract) and build one entry per dict element. -/
def parse_questions (parsed : List Json) (qtypes : List String)
    (numQuestions : Nat) : List (List (String × Json)) :=
  parse_questions_go qtypes 0 (parsed.take numQuestions)

/-- Result of one upstream chat-completion call: the failure text of
`call_azure_grading`, or the returned message content. -/
inductive UpstreamReply where
  | failure : List Char → UpstreamReply
  | success : List Char → UpstreamReply

/-- One outbound upstream call: the prompt sent and the sampling
temperature used (top_p and max_tokens are fixed per endpoint). -/
structure UpCall where
  prompt : List Char
  temperature : ℚ

/-- Content-filter classification of failure text (line 432). -/
def content_filter_error (err : List Char) : Bool :=
  infix_of ("content_filter".toList) (err.map Char.toLower) ||
  infix_of ("responsibleaipolicyviolation".toList) (err.map Char.toLower)

/-- Quality-to-temperature table of `/grade` (lines 422-423), 0.4 for
unknown tiers; the float constants are modelled as exact rationals. -/
def grade_quality_temperature (quality : String) : ℚ :=
  if quality = "fast" then 1/5
  else if quality = "balanced" then 2/5
  else if quality = "best" then 3/5
  else 2/5

/-- Upstream-call phase of `gateway_grade` (lines 425-444): the first
call uses the softened prompt only in proactive-softening mode; a
failure whose text carries a content-filter marker, when proactive
softening was off, triggers exactly one retry with the softened original
prompt at the same temperature; every other failure is final, and a
retry failure is final. -/
def grade_upstream_phase (safePrompts : Bool) (prompt : List Char)
    (temperature : ℚ) (replies : Nat → UpstreamReply) :
    List UpCall × UpstreamReply :=
  let firstPrompt := if safePrompts then soften_prompt prompt else prompt
  match replies 0 with
  | .success c => ([⟨firstPrompt, temperature⟩], .success c)
  | .failure err =>
    if content_filter_error err ∧ ¬ safePrompts then
      ([⟨firstPrompt, temperature⟩, ⟨soften_prompt prompt, temperature⟩],
        replies 1)
    else
      ([⟨firstPrompt, temperature⟩], .failure err)

/-- Upstream-call phase of `analyze_topics` (lines 552-560): exactly one
call, no retry of any kind; any failure is final. -/
def analyze_topics_upstream_phase (prompt : List Char) (temperature : ℚ)
    (replies : Nat → UpstreamReply) : List UpCall × UpstreamReply :=
  ([⟨prompt, temperature⟩], replies 0)

/-- Which builder `_gateway_prompt_for_operation` (lines 306-332)
selects; `grade_rubric` and `grade_text` share the rubric builder.  The
builders always produce non-empty instructional text from the payload,
so selection success coincides with the non-falsy-prompt test of line
419; the built prompt is threaded through the pipeline model as a
parameter because no claim depends on its contents (the truncation steps
of the quiz-generation builders are modelled separately). -/
inductive PromptBuilder where
  | semanticSimilarity
  | quizSummary
  | rubric
deriving DecidableEq

/-- Dispatch of `_gateway_prompt_for_operation` (lines 306-332): the
four supported operations select a builder, anything else yields none. -/
def gateway_prompt_for_operation (operation : String) :
    Option PromptBuilder :=
  if operation = "semantic_similarity" then some .semanticSimilarity
  else if operation = "quiz_summary" then some .quizSummary
  else if operation = "grade_rubric" ∨ operation = "grade_text" then
    some .rubric
  else none

/-- Response of the `/grade` pipeline model: HTTP status, error message
(absent on success), the upstream calls issued, and the normalized
content returned. -/
structure GradeResp where
  status : Nat
  error : Option (List Char)
  calls : List UpCall
  content : Option (List (String × Json))

/-- Embeds the `/grade` handler `gateway_grade` (lines 400-484): the
authorization gate, the invalid-payload and unsupported-operation
rejections, the upstream phase with its single content-filter retry, the
extractor, and the per-operation normalization.  The `operation` and
`quality` arguments are the stripped strings the handler extracts from
the body; `payloadIsDict` records whether the payload field is a
mapping; `replies` gives the upstream outcome of each call in order. -/
def gateway_grade_response (allowed : List (List Char)) (header : List Char)
    (safePrompts : Bool) (operation quality : String) (payloadIsDict : Bool)
    (prompt : List Char) (replies : Nat → UpstreamReply) : GradeResp :=
  match gateway_require_auth allowed header with
  | .notConfigured =>
    ⟨503, some ("Gateway authentication is not configured".toList), [], none⟩
  | .unauthorized => ⟨401, some ("Unauthorized".toList), [], none⟩
  | .ok =>
    if operation = "" ∨ ¬ payloadIsDict then
      ⟨400, some ("Invalid request payload".toList), [], none⟩
    else
      match gateway_prompt_for_operation operation with
      | none => ⟨400, some ("Unsupported operation".toList), [], none⟩
      | some _ =>
        let temperature := grade_quality_temperature quality
        let res := grade_upstream_phase safePrompts prompt temperature replies
        match res.2 with
        | .failure _ =>
          ⟨502, some ("AI grading is temporarily unavailable".toList),
            res.1, none⟩
        | .success c =>
          match gateway_json_from_text (some c) with
          | some (Json.obj fields) =>
            ⟨200, none, res.1, some (normalize_grade operation fields)⟩
          | _ =>
            ⟨502, some ("AI response parsing failed".toList), res.1, none⟩

/-- A list whose head, if any, is not a decimal digit: the contexts in
which a serialized number is followed by more input (a comma, a closing
bracket, or nothing), so the digit scan of the parser stops exactly at
the end of the number. -/
def delim_ok (rest : List Char) : Prop :=
  ∀ c, rest.head? = some c → is_digit_char c = false

/-- Model output wrapped in markdown code fences with the json language
tag, as the upstream model often returns it. -/
def fence_wrap (cs : List Char) : List Char :=
  ("```json\n".toList ++ cs) ++ "\n```".toList

/-- Classifier used to state claims about the extractor: is the value a
JSON object or array? -/
def json_is_obj_or_arr : Json → Bool
  | .obj _ => true
  | .arr _ => true
  | _ => false

/-- Classifier used to state claims about the question loop: is the
value a JSON object (a Python dict)? -/
def json_is_obj : Json → Bool
  | .obj _ => true
  | _ => false

/- ===================== theorems ===================== -/

/-- Accepted keys produced by the configuration parser are never the
empty string: empty pieces are filtered out and the single key is only
added when non-empty. -/
theorem mem_gateway_allowed_keys_ne_nil (rawMulti single t : List Char)
    (ht : t ∈ gateway_allowed_keys rawMulti single) : t ≠ [] := by
  unfold gateway_allowed_keys at ht
  by_cases h : (trim_chars single).isEmpty <;> simp [h] at ht
  · rcases ht with ⟨_, hne⟩
    simpa [List.isEmpty_iff] using hne
  · rcases ht with ⟨_, hne⟩ | rfl
    · simpa [List.isEmpty_iff] using hne
    · simpa [List.isEmpty_iff] using h

/-- C1: with the accepted-key set built from configuration, a non-empty
set authorizes exactly the requests whose bearer token is a member of
the set (absent or empty tokens are rejected, and every rejection on a
non-empty set is the 401 `unauthorized` outcome), while an empty set
yields the 503 `notConfigured` outcome for every request. -/
theorem c1_auth_gate (rawMulti single header : List Char) :
    (gateway_allowed_keys rawMulti single ≠ [] →
      (gateway_require_auth (gateway_allowed_keys rawMulti single) header =
          .ok ↔
        gateway_extract_bearer_token header ∈
          gateway_allowed_keys rawMulti single)) ∧
    (gateway_allowed_keys rawMulti single ≠ [] →
      gateway_require_auth (gateway_allowed_keys rawMulti single) header ≠
        .ok →
      gateway_require_auth (gateway_allowed_keys rawMulti single) header =
        .unauthorized) ∧
    (gateway_allowed_keys rawMulti single = [] →
      gateway_require_auth (gateway_allowed_keys rawMulti single) header =
        .notConfigured) := by
  refine ⟨fun hne => ?_, fun hne _ => ?_, fun he => ?_⟩
  · unfold gateway_require_auth
    simp only [hne, if_neg hne]
    by_cases hmem : gateway_extract_bearer_token header ∈
        gateway_allowed_keys rawMulti single
    · have hnz : gateway_extract_bearer_token header ≠ [] :=
        mem_gateway_allowed_keys_ne_nil rawMulti single _ hmem
      simp [hmem, hnz]
    · simp [hmem]
  · unfold gateway_require_auth
    by_cases hcond : gateway_extract_bearer_token header = [] ∨
        gateway_extract_bearer_token header ∉
          gateway_allowed_keys rawMulti single
    · simp [hne, hcond]
    · unfold gateway_require_auth at *
      simp_all
  · simp [gateway_require_auth, he]

/-- Witness for C1 at a concrete configuration and header. -/
theorem c1_auth_gate_witness :
    gateway_require_auth (gateway_allowed_keys ("alpha,beta".toList) [])
        ("Bearer beta".toList) = .ok := by
  exact ((c1_auth_gate ("alpha,beta".toList) [] ("Bearer beta".toList)).1
    (by decide)).mpr (by decide)

/-- A successful cumulative walk returns a declared label. -/
theorem select_walk_mem (dist : List (String × Int)) (rand c : Int)
    (l : String) (h : select_walk dist rand c = some l) :
    l ∈ dist.map Prod.fst := by
  induction dist generalizing c with
  | nil => simp [select_walk] at h
  | cons hd tl ih =>
    rcases hd with ⟨level, p⟩
    rw [select_walk] at h
    by_cases hle : rand ≤ c + p
    · simp [hle] at h
      simp [h]
    · simp [hle] at h
      exact List.mem_cons_of_mem _ (ih _ h)

/-- When the draw exceeds every running total of non-negative weights,
the walk fails and the fallback fires. -/
theorem select_walk_none_of_gt (dist : List (String × Int)) (rand c : Int)
    (hw : ∀ w ∈ dist.map Prod.snd, 0 ≤ w)
    (h : c + (dist.map Prod.snd).sum < rand) :
    select_walk dist rand c = none := by
  induction dist generalizing c with
  | nil => simp [select_walk]
  | cons hd tl ih =>
    rcases hd with ⟨level, p⟩
    have hsum : 0 ≤ (tl.map Prod.snd).sum := by
      apply List.sum_nonneg
      intro w hwmem
      exact hw w (by simp at hwmem ⊢; exact Or.inr hwmem)
    have hgt : ¬ rand ≤ c + p := by
      simp at h
      omega
    rw [select_walk]
    simp only [hgt, if_false]
    apply ih
    · intro w hwmem
      exact hw w (by simp at hwmem ⊢; exact Or.inr hwmem)
    · simp at h ⊢
      omega

/-- C4 counterexample: on the empty mapping the walk is exhausted and
the fallback `list(distribution.keys())[0]` has nothing to index — in
Python this raises `IndexError` (modelled by `none`), so the function
neither avoids raising nor returns a declared label. -/
theorem c4_empty_mapping_counterexample :
    select_from_distribution [] 50 = none := rfl

/-- C4 amended: for every non-empty weight mapping (even malformed —
weights of any sign, any total) and every draw, the selection never
fails and returns a declared label; moreover with non-negative weights,
a draw exceeding the cumulative sum returns the first declared label. -/
theorem c4_select_amended (dist : List (String × Int)) (rand : Int)
    (hne : dist ≠ []) :
    (∃ l, select_from_distribution dist rand = some l ∧
      l ∈ dist.map Prod.fst) ∧
    ((∀ w ∈ dist.map Prod.snd, 0 ≤ w) →
      (dist.map Prod.snd).sum < rand →
      select_from_distribution dist rand = (dist.head?).map Prod.fst) := by
  constructor
  · unfold select_from_distribution
    cases hwalk : select_walk dist rand 0 with
    | some l => exact ⟨l, rfl, select_walk_mem dist rand 0 l hwalk⟩
    | none =>
      rcases dist with _ | ⟨⟨level, p⟩, tl⟩
      · exact absurd rfl hne
      · exact ⟨level, by simp, by simp⟩
  · intro hw hsum
    unfold select_from_distribution
    rw [select_walk_none_of_gt dist rand 0 hw (by simpa using hsum)]

/-- Witness for the amended C4 at a concrete mapping and draw. -/
theorem c4_select_amended_witness :
    ∃ l, select_from_distribution
        [("easy", 20), ("medium", 60), ("hard", 20)] 50 = some l ∧
      l ∈ ["easy", "medium", "hard"] := by
  have h := (c4_select_amended
    [("easy", 20), ("medium", 60), ("hard", 20)] 50 (by decide)).1
  simpa using h

/-- C8 counterexample: the topic-extraction builder cuts over-long content
to 150000 characters but appends no truncation marker — the result of
cutting a 150001-character text consists of the letter a alone, with no
"..." marker anywhere. -/
theorem c8_topic_truncation_counterexample :
    topic_content_truncate (List.replicate 150001 'a') =
      List.replicate 150000 'a' ∧
    '.' ∉ topic_content_truncate (List.replicate 150001 'a') := by
  have hcut : topic_content_truncate (List.replicate 150001 'a') =
      List.replicate 150000 'a' := by
    unfold topic_content_truncate
    rw [if_pos (by rw [List.length_replicate]; omega)]
    rw [List.take_replicate]
    norm_num
  refine ⟨hcut, ?_⟩
  rw [hcut]
  intro hmem
  have := (List.mem_replicate.mp hmem).2
  exact absurd this (by decide)

/-- C8 amended: content at or under the ceiling of a builder is embedded
unchanged; over the ceiling the question-generation builder truncates to
5000 characters and appends the "..." marker, while the topic-extraction
builder truncates to 150000 characters silently, without a marker. -/
theorem c8_truncation_amended (content : List Char) :
    (content.length ≤ 150000 → topic_content_truncate content = content) ∧
    (content.length > 150000 →
      topic_content_truncate content = content.take 150000) ∧
    (content.length ≤ 5000 → question_content_truncate content = content) ∧
    (content.length > 5000 →
      question_content_truncate content =
        content.take 5000 ++ "...".toList) := by
  refine ⟨fun h => ?_, fun h => ?_, fun h => ?_, fun h => ?_⟩
  · unfold topic_content_truncate
    rw [if_neg (by omega)]
  · unfold topic_content_truncate
    rw [if_pos (by omega)]
  · unfold question_content_truncate
    rw [if_neg (by omega)]
  · unfold question_content_truncate
    rw [if_pos (by omega)]

/-- Witness for the amended C8 at concrete contents on both sides of the
question-generation ceiling. -/
theorem c8_truncation_amended_witness :
    question_content_truncate (List.replicate 5001 'b') =
      List.replicate 5000 'b' ++ "...".toList ∧
    question_content_truncate ("short text".toList) = "short text".toList := by
  constructor
  · have h := (c8_truncation_amended (List.replicate 5001 'b')).2.2.2
      (by rw [List.length_replicate]; omega)
    rw [h, List.take_replicate]
    norm_num
  · exact (c8_truncation_amended ("short text".toList)).2.2.1 (by decide)

/-- C3: the claim says every line containing imperative "must" is
rewritten into a "please"-phrased request so that no standalone "must"
survives softening.  The code is a slip: the raw pattern `r"\\bmust\\b"`
matches the literal characters backslash b m u s t backslash b, not the
word "must" between word boundaries, so an ordinary line using MUST
passes through softening unchanged and the word MUST survives. -/
theorem c3_must_survives_softening :
    soften_prompt ("You MUST grade the work.".toList) =
      ("You MUST grade the work.\nPlease return only a valid JSON object.".toList) ∧
    infix_of ("MUST".toList)
      (soften_prompt ("You MUST grade the work.".toList)) = true := by
  constructor <;> decide

/-- Companion fact for C3: on a line that does contain the literal
eight-character text the doubled pattern denotes, the rewrite fires,
confirming where the slip lives. -/
theorem c3_literal_pattern_fires :
    soften_prompt ("rule \\bmust\\b apply".toList) =
      ("rule please apply\nPlease return only a valid JSON object.".toList) := by
  decide

/-- C6 counterexample: on the upstream text "5" the extractor returns
the parsed number 5 — a JSON value that is neither an object nor an
array — so the extractor does not return only objects, arrays, or the
unparseable signal. -/
theorem c6_scalar_counterexample :
    gateway_json_from_text (some ("5".toList)) = some (Json.num 5) ∧
    json_is_obj_or_arr (Json.num 5) = false := ⟨rfl, rfl⟩

/-- C6 amended: the extractor, a total function (the embedding never
raises by construction), returns either a parsed JSON value — of any
JSON type, scalars included — or the definitive unparseable signal
`none`; a missing input, and an input that is empty after stripping,
always yield the unparseable signal. -/
theorem c6_extractor_amended :
    gateway_json_from_text none = none ∧
    (∀ t : List Char, trim_chars t = [] →
      gateway_json_from_text (some t) = none) := by
  refine ⟨rfl, fun t h => ?_⟩
  simp [gateway_json_from_text, h]

/-- Witness for the amended C6 at a concrete whitespace-only input. -/
theorem c6_extractor_amended_witness :
    gateway_json_from_text (some ("  ".toList)) = none := by
  exact c6_extractor_amended.2 ("  ".toList) (by decide)

/-- C5 counterexample: for a grade_text request whose upstream object
lacks max_score, normalization fills it with 100 — which is not an empty
list, an empty string, or zero as the claim states. -/
theorem c5_max_score_counterexample :
    (normalize_grade "grade_text" []).lookup "max_score" =
      some (Json.num 100) ∧
    Json.num 100 ≠ Json.num 0 := by
  refine ⟨rfl, fun h => ?_⟩
  have := Json.num.inj h
  norm_num at this

/-- C5 amended: for every supported operation and every extracted JSON
object, normalization is a total function and returns a mapping with the
fixed, operation-determined key set in which every key missing from the
upstream object is filled with the type-appropriate default the code
chooses — an empty list, an empty string, zero for score, and 100 for
max_score — and never omitted. -/
theorem c5_normalize_amended (parsed : List (String × Json)) :
    ((normalize_grade "semantic_similarity" parsed).map Prod.fst =
      ["matched_concepts", "partially_matched_concepts",
       "missing_concepts", "reasoning"]) ∧
    ((normalize_grade "quiz_summary" parsed).map Prod.fst =
      ["overall_feedback", "strengths", "improvements"]) ∧
    ((normalize_grade "grade_rubric" parsed).map Prod.fst =
      ["criteria", "feedback"]) ∧
    ((normalize_grade "grade_text" parsed).map Prod.fst =
      ["score", "max_score", "feedback", "criteria"]) ∧
    (parsed.lookup "matched_concepts" = none →
      (normalize_grade "semantic_similarity" parsed).lookup
        "matched_concepts" = some (Json.arr [])) ∧
    (parsed.lookup "partially_matched_concepts" = none →
      (normalize_grade "semantic_similarity" parsed).lookup
        "partially_matched_concepts" = some (Json.arr [])) ∧
    (parsed.lookup "missing_concepts" = none →
      (normalize_grade "semantic_similarity" parsed).lookup
        "missing_concepts" = some (Json.arr [])) ∧
    (parsed.lookup "reasoning" = none →
      (normalize_grade "semantic_similarity" parsed).lookup "reasoning" =
        some (Json.str "")) ∧
    (parsed.lookup "overall_feedback" = none →
      (normalize_grade "quiz_summary" parsed).lookup "overall_feedback" =
        some (Json.str "")) ∧
    (parsed.lookup "strengths" = none →
      (normalize_grade "quiz_summary" parsed).lookup "strengths" =
        some (Json.arr [])) ∧
    (parsed.lookup "improvements" = none →
      (normalize_grade "quiz_summary" parsed).lookup "improvements" =
        some (Json.arr [])) ∧
    (parsed.lookup "criteria" = none →
      (normalize_grade "grade_rubric" parsed).lookup "criteria" =
        some (Json.arr [])) ∧
    (parsed.lookup "feedback" = none →
      (normalize_grade "grade_rubric" parsed).lookup "feedback" =
        some (Json.str "")) ∧
    (parsed.lookup "score" = none →
      (normalize_grade "grade_text" parsed).lookup "score" =
        some (Json.num 0)) ∧
    (parsed.lookup "max_score" = none →
      (normalize_grade "grade_text" parsed).lookup "max_score" =
        some (Json.num 100)) ∧
    (parsed.lookup "feedback" = none →
      (normalize_grade "grade_text" parsed).lookup "feedback" =
        some (Json.str "")) ∧
    (parsed.lookup "criteria" = none →
      (normalize_grade "grade_text" parsed).lookup "criteria" =
        some (Json.arr [])) := by
  refine ⟨?_, ?_, ?_, ?_, ?_, ?_, ?_, ?_, ?_, ?_, ?_, ?_, ?_, ?_, ?_, ?_,
    ?_⟩ <;> try intro h
  all_goals simp [normalize_grade, jget, List.lookup, *]

/-- Witness for the amended C5 at the empty extracted object. -/
theorem c5_normalize_amended_witness :
    (normalize_grade "grade_text" []).lookup "score" = some (Json.num 0) ∧
    (normalize_grade "semantic_similarity" []).lookup "reasoning" =
      some (Json.str "") := by
  have h := c5_normalize_amended []
  exact ⟨h.2.2.2.2.2.2.2.2.2.2.2.2.2.1 rfl, h.2.2.2.2.2.2.2.1 rfl⟩

/-- C9: an authorized /grade request whose operation string is not in
the supported set receives status 400 with the error "Unsupported
operation"; no upstream call is issued and no content is produced — the
operation is never silently defaulted to a supported one. -/
theorem c9_unsupported_operation (allowed : List (List Char))
    (header prompt : List Char) (safePrompts : Bool)
    (operation quality : String) (replies : Nat → UpstreamReply)
    (hauth : gateway_require_auth allowed header = .ok)
    (hne : operation ≠ "")
    (hop : operation ∉ ["semantic_similarity", "quiz_summary",
      "grade_rubric", "grade_text"]) :
    gateway_grade_response allowed header safePrompts operation quality
        true prompt replies =
      ⟨400, some ("Unsupported operation".toList), [], none⟩ := by
  have hdisp : gateway_prompt_for_operation operation = none := by
    simp at hop
    simp [gateway_prompt_for_operation, hop.1, hop.2.1, hop.2.2.1, hop.2.2.2]
  unfold gateway_grade_response
  rw [hauth]
  simp [hne, hdisp]

/-- Witness for C9 at a concrete authorized request with an unknown
operation. -/
theorem c9_unsupported_operation_witness :
    gateway_grade_response [("k".toList)] ("Bearer k".toList) false
        "frobnicate" "balanced" true [] (fun _ => .failure []) =
      ⟨400, some ("Unsupported operation".toList), [], none⟩ := by
  exact c9_unsupported_operation _ _ _ _ _ _ _ (by decide) (by decide)
    (by decide)

/-- C2 counterexample: in the analyze_topics pipeline a first upstream
failure carrying the content_filter marker, with proactive softening not
applied, is terminal immediately — exactly one upstream call is issued
and no softened retry happens, contradicting the claim for this
request. -/
theorem c2_analyze_topics_counterexample :
    content_filter_error ("content_filter".toList) = true ∧
    (analyze_topics_upstream_phase ("p".toList) (3/10)
        (fun _ => .failure ("content_filter".toList))).1.length = 1 ∧
    (analyze_topics_upstream_phase ("p".toList) (3/10)
        (fun _ => .failure ("content_filter".toList))).2 =
      .failure ("content_filter".toList) := by
  refine ⟨by decide, rfl, rfl⟩

/-- C2 amended: the softened content-filter retry exists only in the
/grade pipeline.  There, when the first call fails with a content-filter
marker (matched case-insensitively) and proactive softening was off,
exactly one additional call is issued, using the softened original
prompt at the same temperature; any other first-call failure is terminal
with a single call; a failure of the retry is terminal with HTTP 502;
and no /grade request ever issues more than two upstream calls.  The
other upstream endpoints issue exactly one call per request and never
retry (the analyze_topics phase is stated here; its counterexample
exhibits the terminal content-filter failure). -/
theorem c2_retry_amended (safePrompts : Bool) (prompt : List Char)
    (temperature : ℚ) (replies : Nat → UpstreamReply) :
    (∀ err, replies 0 = .failure err → content_filter_error err = true →
      safePrompts = false →
      grade_upstream_phase safePrompts prompt temperature replies =
        ([⟨prompt, temperature⟩, ⟨soften_prompt prompt, temperature⟩],
          replies 1)) ∧
    (∀ err, replies 0 = .failure err →
      (content_filter_error err = false ∨ safePrompts = true) →
      grade_upstream_phase safePrompts prompt temperature replies =
        ([⟨(if safePrompts then soften_prompt prompt else prompt),
            temperature⟩], .failure err)) ∧
    ((grade_upstream_phase safePrompts prompt temperature replies).1.length
      ≤ 2) ∧
    (∀ err err2, replies 0 = .failure err → replies 1 = .failure err2 →
      ∀ allowed header operation quality,
        gateway_require_auth allowed header = .ok →
        gateway_prompt_for_operation operation ≠ none →
        operation ≠ "" →
        (gateway_grade_response allowed header safePrompts operation quality
          true prompt replies).status = 502) ∧
    ((analyze_topics_upstream_phase prompt temperature replies).1.length
      = 1) := by
  refine ⟨?_, ?_, ?_, ?_, rfl⟩
  · intro err h0 hf hs
    subst hs
    simp [grade_upstream_phase, h0, hf]
  · intro err h0 hcase
    rcases hcase with hf | hs
    · simp [grade_upstream_phase, h0, hf]
    · subst hs
      simp [grade_upstream_phase, h0]
  · unfold grade_upstream_phase
    rcases replies 0 with err | c
    · by_cases hcf : content_filter_error err = true <;>
        cases safePrompts <;> simp [hcf]
    · simp
  · intro err err2 h0 h1 allowed header operation quality hauth hdisp hne
    unfold gateway_grade_response
    rw [hauth]
    rcases hd : gateway_prompt_for_operation operation with _ | b
    · exact absurd hd hdisp
    · simp [hne]
      unfold grade_upstream_phase
      rw [h0]
      by_cases hcf : content_filter_error err = true <;>
        cases safePrompts <;> simp [hcf, h1]

/-- Witness for the amended C2: a concrete content-filter failure with
softening off issues exactly the two calls, the retry with the softened
prompt at the same temperature, and the retry failure is final. -/
theorem c2_retry_amended_witness :
    grade_upstream_phase false ("p".toList) (2/5)
        (fun n => if n = 0 then .failure ("content_filter hit".toList)
          else .failure ("boom".toList)) =
      ([⟨"p".toList, 2/5⟩, ⟨soften_prompt ("p".toList), 2/5⟩],
        .failure ("boom".toList)) := by
  have h := (c2_retry_amended false ("p".toList) (2/5)
      (fun n => if n = 0 then .failure ("content_filter hit".toList)
        else .failure ("boom".toList))).1
    ("content_filter hit".toList) rfl (by decide) rfl
  simpa using h

/-- The question loop produces at most one entry per array element. -/
theorem parse_questions_go_length_le (qtypes : List String) (i : Nat)
    (l : List Json) :
    (parse_questions_go qtypes i l).length ≤ l.length := by
  induction l generalizing i with
  | nil => simp [parse_questions_go]
  | cons q rest ih =>
    cases q <;> simp [parse_questions_go] <;>
      first
      | exact ih _
      | exact le_trans (ih _) (Nat.le_succ _)

/-- The question loop produces exactly one entry per dict element. -/
theorem parse_questions_go_length_eq (qtypes : List String) (i : Nat)
    (l : List Json) :
    (parse_questions_go qtypes i l).length =
      (l.filter json_is_obj).length := by
  induction l generalizing i with
  | nil => simp [parse_questions_go]
  | cons q rest ih =>
    cases q <;> simp [parse_questions_go, json_is_obj, ih]

/-- Every entry the question loop produces carries exactly the seven
fixed keys, in order. -/
theorem parse_questions_go_keys (qtypes : List String) (i : Nat)
    (l : List Json) (e : List (String × Json))
    (he : e ∈ parse_questions_go qtypes i l) :
    e.map Prod.fst = ["questiontext", "questiontype", "difficulty",
      "blooms_level", "answers", "generalfeedback", "ai_reasoning"] := by
  induction l generalizing i with
  | nil => simp [parse_questions_go] at he
  | cons q rest ih =>
    cases q <;> simp [parse_questions_go] at he <;>
      first
      | exact ih _ he
      | rcases he with rfl | he
        · rfl
        · exact ih _ he

/-- The dict at position `j` of the scanned list yields the entry built
with running index `i + j`, so questiontype is selected by the position
in the array, not by the position among the dict elements. -/
theorem parse_questions_go_get (qtypes : List String) (i j : Nat)
    (l : List Json) (fields : List (String × Json))
    (hj : l[j]? = some (Json.obj fields)) :
    question_entry qtypes (i + j) fields ∈ parse_questions_go qtypes i l := by
  induction l generalizing i j with
  | nil => simp at hj
  | cons q rest ih =>
    cases j with
    | zero =>
      simp at hj
      subst hj
      simp [parse_questions_go]
    | succ j' =>
      simp at hj
      have := ih (i + 1) j' hj
      cases q <;> simp [parse_questions_go] <;>
        first
        | simpa [Nat.add_assoc, Nat.add_comm 1 j'] using this
        | exact Or.inr (by simpa [Nat.add_assoc, Nat.add_comm 1 j'] using this)

/-- C10: the questions list built from a parsed JSON array has length
at most num_questions and exactly one entry per dict element of the
truncated array (non-dict elements are silently skipped); every entry
has exactly the keys questiontext, questiontype, difficulty,
blooms_level, answers, generalfeedback, ai_reasoning; the entry for the
dict at position i takes questiontype from question_types by that
position, defaulting to multichoice past its end; and missing fields
receive the per-field defaults. -/
theorem c10_generate_questions (parsed : List Json) (qtypes : List String)
    (numQuestions : Nat) :
    ((parse_questions parsed qtypes numQuestions).length ≤ numQuestions) ∧
    ((parse_questions parsed qtypes numQuestions).length =
      ((parsed.take numQuestions).filter json_is_obj).length) ∧
    (∀ e ∈ parse_questions parsed qtypes numQuestions,
      e.map Prod.fst = ["questiontext", "questiontype", "difficulty",
        "blooms_level", "answers", "generalfeedback", "ai_reasoning"]) ∧
    (∀ i fields, (parsed.take numQuestions)[i]? =
        some (Json.obj fields) →
      question_entry qtypes i fields ∈
        parse_questions parsed qtypes numQuestions) ∧
    (∀ i fields,
      (question_entry qtypes i fields).lookup "questiontype" =
        some (Json.str (qtypes.getD i "multichoice"))) ∧
    (∀ i fields, fields.lookup "questiontext" = none →
      (question_entry qtypes i fields).lookup "questiontext" =
        some (Json.str "")) ∧
    (∀ i fields, fields.lookup "difficulty" = none →
      (question_entry qtypes i fields).lookup "difficulty" =
        some (Json.str "medium")) ∧
    (∀ i fields, fields.lookup "blooms_level" = none →
      (question_entry qtypes i fields).lookup "blooms_level" =
        some (Json.str "understand")) ∧
    (∀ i fields, fields.lookup "answers" = none →
      (question_entry qtypes i fields).lookup "answers" =
        some (Json.arr [])) ∧
    (∀ i fields, fields.lookup "ai_reasoning" = none →
      (question_entry qtypes i fields).lookup "ai_reasoning" =
        some (Json.str "")) := by
  refine ⟨?_, ?_, ?_, ?_, ?_, ?_, ?_, ?_, ?_, ?_⟩
  · exact le_trans (parse_questions_go_length_le qtypes 0 _)
      (le_trans (Nat.le_of_eq (List.length_take _ _)) (Nat.min_le_left _ _))
  · exact parse_questions_go_length_eq qtypes 0 _
  · exact fun e he => parse_questions_go_keys qtypes 0 _ e he
  · intro i fields hi
    simpa using parse_questions_go_get qtypes 0 i _ fields hi
  · intro i fields
    simp [question_entry, List.lookup]
  · intro i fields h
    simp [question_entry, jget, List.lookup, h]
  · intro i fields h
    simp [question_entry, jget, List.lookup, h]
  · intro i fields h
    simp [question_entry, jget, List.lookup, h]
  · intro i fields h
    simp [question_entry, jget, List.lookup, h]
  · intro i fields h
    simp [question_entry, jget, List.lookup, h]

/-- Witness for C10 at a concrete parsed array with one dict and one
skipped scalar. -/
theorem c10_generate_questions_witness :
    (parse_questions [Json.obj [], Json.num 3] ["truefalse"] 5).length
      = 1 ∧
    question_entry ["truefalse"] 0 [] ∈
      parse_questions [Json.obj [], Json.num 3] ["truefalse"] 5 := by
  have h := c10_generate_questions [Json.obj [], Json.num 3] ["truefalse"] 5
  refine ⟨by rw [h.2.1]; rfl, h.2.2.2.1 0 [] rfl⟩

/-- Skipping JSON whitespace is a no-op on a non-whitespace head. -/
theorem skip_ws_cons (c : Char) (l : List Char) (h : is_ws c = false) :
    skip_ws (c :: l) = c :: l := by
  simp [skip_ws, List.dropWhile_cons, h]

/-- Unfolds the escape of one character. -/
theorem escape_chars_cons (c : Char) (s : List Char) :
    escape_chars (c :: s) = escape_char c ++ escape_chars s := by
  simp [escape_chars]

/-- A string body that opens with the closing quote is empty. -/
theorem parse_string_body_quote (rest : List Char) :
    parse_string_body ('"' :: rest) = some ([], rest) := by
  rw [parse_string_body.eq_def]
  simp

/-- An unescaped ordinary character is consumed verbatim. -/
theorem parse_string_body_other (c : Char) (l : List Char)
    (hq : c ≠ '"') (hb : c ≠ '\\') :
    parse_string_body (c :: l) =
      match parse_string_body l with
      | some (s, r) => some (c :: s, r)
      | none => none := by
  rw [parse_string_body.eq_def]
  simp [hq, hb]

/-- Reading an escaped string body up to a closing quote recovers the
original characters: escaping and unescaping are inverse. -/
theorem parse_string_body_escape (s rest : List Char) :
    parse_string_body (escape_chars s ++ '"' :: rest) = some (s, rest) := by
  induction s with
  | nil => simpa [escape_chars] using parse_string_body_quote rest
  | cons c t ih =>
    rw [escape_chars_cons]
    by_cases hq : c = '"'
    · subst hq
      simp [escape_char, parse_string_body, unescape_char, ih]
    · by_cases hb : c = '\\'
      · subst hb
        simp [escape_char, parse_string_body, unescape_char, ih]
      · rw [escape_char]
        simp only [hq, hb, if_false, List.singleton_append, List.cons_append]
        rw [parse_string_body_other c _ hq hb]
        simp only [List.nil_append]
        rw [ih]

/-- Digit characters decode back to their digit. -/
theorem char_digit_digit_char (d : Nat) (h : d < 10) :
    char_digit (digit_char d) = d := by
  interval_cases d <;> decide

/-- Digit characters satisfy the digit test. -/
theorem is_digit_digit_char (d : Nat) (h : d < 10) :
    is_digit_char (digit_char d) = true := by
  interval_cases d <;> decide

/-- Every character of a serialized natural number is a digit. -/
theorem nat_chars_digits (n : Nat) :
    ∀ c ∈ nat_chars n, is_digit_char c = true := by
  intro c hc
  unfold nat_chars at hc
  by_cases h : n = 0
  · simp [h] at hc
    subst hc; decide
  · rw [if_neg h] at hc
    rw [List.mem_reverse, List.mem_map] at hc
    rcases hc with ⟨d, hd, rfl⟩
    exact is_digit_digit_char d (Nat.digits_lt_base (by norm_num) hd)

/-- A serialized natural number is never empty. -/
theorem nat_chars_ne_nil (n : Nat) : nat_chars n ≠ [] := by
  unfold nat_chars
  by_cases h : n = 0
  · simp [h]
  · rw [if_neg h]
    simp [Nat.digits_ne_nil_iff_ne_zero.mpr h]

/-- Folding the decimal accumulator over encoded digits equals folding
over the digits themselves. -/
theorem foldl_digits_map (ds : List Nat) (A : Nat)
    (h : ∀ d ∈ ds, d < 10) :
    List.foldl (fun a c => a * 10 + char_digit c) A (ds.map digit_char) =
      List.foldl (fun a d => a * 10 + d) A ds := by
  induction ds generalizing A with
  | nil => rfl
  | cons d t ih =>
    simp only [List.map_cons, List.foldl_cons]
    rw [char_digit_digit_char d (h d (by simp))]
    exact ih _ (fun x hx => h x (by simp [hx]))

/-- The decimal left fold in closed form, via `Nat.ofDigits`. -/
theorem foldl_decimal (l : List Nat) (A : Nat) :
    List.foldl (fun a d => a * 10 + d) A l =
      A * 10 ^ l.length + Nat.ofDigits 10 l.reverse := by
  induction l generalizing A with
  | nil => simp
  | cons d t ih =>
    simp only [List.foldl_cons, List.reverse_cons, List.length_cons]
    rw [ih, Nat.ofDigits_append]
    simp [Nat.ofDigits]
    ring

/-- Parsing the digit characters of a natural number recovers it. -/
theorem nat_chars_value (n : Nat) :
    List.foldl (fun a c => a * 10 + char_digit c) 0 (nat_chars n) = n := by
  by_cases h : n = 0
  · subst h; decide
  · unfold nat_chars
    rw [if_neg h, ← List.map_reverse]
    rw [foldl_digits_map _ _
      (fun d hd => Nat.digits_lt_base (by norm_num) (List.mem_reverse.mp hd))]
    rw [foldl_decimal]
    simp [Nat.ofDigits_digits]

/-- A take-while over a satisfying block followed by a failing head
splits exactly at the boundary. -/
theorem takeWhile_append_all (p : Char → Bool) (l r : List Char)
    (hl : ∀ c ∈ l, p c = true)
    (hr : ∀ c, r.head? = some c → p c = false) :
    (l ++ r).takeWhile p = l ∧ (l ++ r).dropWhile p = r := by
  induction l with
  | nil =>
    simp only [List.nil_append]
    cases r with
    | nil => simp
    | cons c t =>
      have := hr c rfl
      simp [List.takeWhile_cons, List.dropWhile_cons, this]
  | cons c t ih =>
    have hc := hl c (by simp)
    have ih' := ih (fun x hx => hl x (by simp [hx]))
    simp [List.takeWhile_cons, List.dropWhile_cons, hc, ih'.1, ih'.2]

/-- The digit scan over a serialized natural number followed by a
non-digit delimiter returns exactly that number. -/
theorem parse_nat_digits_spec (n : Nat) (rest : List Char)
    (hrest : delim_ok rest) :
    parse_nat_digits (nat_chars n ++ rest) = some (n, rest) := by
  have h := takeWhile_append_all is_digit_char (nat_chars n) rest
    (nat_chars_digits n) (fun c hc => hrest c hc)
  simp only [parse_nat_digits, h.1, h.2]
  rw [if_neg (by simpa [List.isEmpty_iff] using nat_chars_ne_nil n)]
  rw [nat_chars_value]

/-- Digit characters are not JSON whitespace. -/
theorem is_ws_eq_false_of_digit (c : Char) (h : is_digit_char c = true) :
    is_ws c = false := by
  simp only [is_digit_char, Bool.and_eq_true, decide_eq_true_eq] at h
  simp only [is_ws, Bool.or_eq_false_iff, beq_eq_false_iff_ne, ne_eq]
  omega

/-- A digit character differs from any non-digit character. -/
theorem digit_ne (c x : Char) (h : is_digit_char c = true)
    (hx : is_digit_char x = false) : c ≠ x := by
  intro heq
  rw [heq] at h
  rw [h] at hx
  exact absurd hx (by decide)

example (f : Nat) (rest : List Char) :
    parse_value (f + 1) (['n', 'u', 'l', 'l'] ++ rest) =
    some (Json.null, rest) := rfl

example (f : Nat) (rest : List Char) (s : List Char) :
    parse_value (f + 1) (('"' :: escape_chars s) ++ ('"' :: rest)) =
    (match parse_string_body (escape_chars s ++ '"' :: rest) with
     | some (sb, r) => some (Json.str (String.mk sb), r)
     | none => none) := rfl


/-- One unfolding step of the value parser on a non-whitespace head. -/
theorem parse_value_cons (f : Nat) (c : Char) (l : List Char)
    (hws : is_ws c = false) :
    parse_value (f + 1) (c :: l) =
      (if c = 'n' then
        match l with
        | 'u' :: 'l' :: 'l' :: r => some (.null, r)
        | _ => none
      else if c = 't' then
        match l with
        | 'r' :: 'u' :: 'e' :: r => some (.bool true, r)
        | _ => none
      else if c = 'f' then
        match l with
        | 'a' :: 'l' :: 's' :: 'e' :: r => some (.bool false, r)
        | _ => none
      else if c = '"' then
        match parse_string_body l with
        | some (s, r) => some (.str (String.mk s), r)
        | none => none
      else if c = '-' then
        match parse_nat_digits l with
        | some (n, r) => some (.num (-(n : Int)), r)
        | none => none
      else if is_digit_char c then
        match parse_nat_digits (c :: l) with
        | some (n, r) => some (.num (n : Int), r)
        | none => none
      else if c = '[' then
        match parse_arr_items f true l with
        | some (vs, r) => some (.arr vs, r)
        | none => none
      else if c = lbrace then
        match parse_obj_items f true l with
        | some (ms, r) => some (.obj ms, r)
        | none => none
      else none) := by
  rw [parse_value, skip_ws_cons _ _ hws]

/-- On a digit head the value parser runs the number scan. -/
theorem parse_value_digit (f : Nat) (c : Char) (l : List Char)
    (hd : is_digit_char c = true) :
    parse_value (f + 1) (c :: l) =
      (match parse_nat_digits (c :: l) with
       | some (n, r) => some (Json.num (n : Int), r)
       | none => none) := by
  rw [parse_value_cons f c l (is_ws_eq_false_of_digit c hd)]
  rw [if_neg (digit_ne c 'n' hd (by decide)),
      if_neg (digit_ne c 't' hd (by decide)),
      if_neg (digit_ne c 'f' hd (by decide)),
      if_neg (digit_ne c '"' hd (by decide)),
      if_neg (digit_ne c '-' hd (by decide)),
      if_pos hd]

/-- One unfolding step of the array-items parser on a non-whitespace
head. -/
theorem parse_arr_items_cons (f : Nat) (b : Bool) (c : Char) (l : List Char)
    (hws : is_ws c = false) :
    parse_arr_items (f + 1) b (c :: l) =
      (if b ∧ c = ']' then some ([], l)
       else
        match parse_value f (c :: l) with
        | none => none
        | some (v, r1) =>
          match skip_ws r1 with
          | [] => none
          | d :: r2 =>
            if d = ',' then
              match parse_arr_items f false r2 with
              | some (vs, r3) => some (v :: vs, r3)
              | none => none
            else if d = ']' then some ([v], r2)
            else none) := by
  rw [parse_arr_items, skip_ws_cons _ _ hws]

/-- One unfolding step of the object-members parser on a
non-whitespace head. -/
theorem parse_obj_items_cons (f : Nat) (b : Bool) (c : Char) (l : List Char)
    (hws : is_ws c = false) :
    parse_obj_items (f + 1) b (c :: l) =
      (if b ∧ c = rbrace then some ([], l)
       else if c = '"' then
        match parse_string_body l with
        | none => none
        | some (k, r1) =>
          match skip_ws r1 with
          | ':' :: r2 =>
            match parse_value f r2 with
            | none => none
            | some (v, r3) =>
              match skip_ws r3 with
              | [] => none
              | d :: r4 =>
                if d = ',' then
                  match parse_obj_items f false r4 with
                  | some (ms, r5) => some ((String.mk k, v) :: ms, r5)
                  | none => none
                else if d = rbrace then some ([(String.mk k, v)], r4)
                else none
          | _ => none
       else none) := by
  rw [parse_obj_items, skip_ws_cons _ _ hws]


/-- The first character of any serialization is not whitespace and not
a closing bracket. -/
theorem serialize_head_facts (j : Json) :
    ∃ c t, serialize j = c :: t ∧ is_ws c = false ∧ c ≠ ']' ∧
      c ≠ rbrace := by
  cases j with
  | null => exact ⟨'n', _, by rw [serialize]; rfl, by decide, by decide,
      by decide⟩
  | bool bv =>
    cases bv
    · exact ⟨'f', _, by rw [serialize]; rfl, by decide, by decide,
        by decide⟩
    · exact ⟨'t', _, by rw [serialize]; rfl, by decide, by decide,
        by decide⟩
  | num i =>
    rw [serialize]
    unfold int_chars
    by_cases h : i < 0
    · rw [if_pos h]
      exact ⟨'-', _, rfl, by decide, by decide, by decide⟩
    · rw [if_neg h]
      rcases hnc : nat_chars i.natAbs with _ | ⟨c, t⟩
      · exact absurd hnc (nat_chars_ne_nil _)
      · have hd : is_digit_char c = true :=
          nat_chars_digits _ c (by rw [hnc]; exact List.mem_cons_self c t)
        exact ⟨c, t, rfl, is_ws_eq_false_of_digit c hd,
          digit_ne c ']' hd (by decide), digit_ne c rbrace hd (by decide)⟩
  | str s =>
    exact ⟨'"', _, by rw [serialize]; rfl, by decide, by decide, by decide⟩
  | arr xs =>
    exact ⟨'[', _, by rw [serialize]; rfl, by decide, by decide, by decide⟩
  | obj fs =>
    exact ⟨lbrace, _, by rw [serialize]; rfl, by decide, by decide,
      by decide⟩


/-- A list headed by a non-digit character is a valid delimiter
context. -/
theorem delim_ok_cons (c : Char) (l : List Char)
    (h : is_digit_char c = false) : delim_ok (c :: l) := by
  intro u hu
  simp only [List.head?_cons, Option.some.injEq] at hu
  subst hu
  exact h

/-- Round trip of the parser over the serializer, by strong induction
on fuel: a serialized value followed by a delimiter-safe rest parses
back to exactly that value, and likewise for serialized item and member
lists followed by their closing bracket. -/
theorem parse_serialize_round (fuel : Nat) :
    (∀ j rest, delim_ok rest → (serialize j).length + 1 ≤ fuel →
      parse_value fuel (serialize j ++ rest) = some (j, rest)) ∧
    (∀ (b : Bool) (xs : List Json) rest, (xs = [] → b = true) →
      (ser_items xs).length + 2 ≤ fuel →
      parse_arr_items fuel b (ser_items xs ++ (']' :: rest)) =
        some (xs, rest)) ∧
    (∀ (b : Bool) (fs : List (String × Json)) rest, (fs = [] → b = true) →
      (ser_members fs).length + 2 ≤ fuel →
      parse_obj_items fuel b (ser_members fs ++ (rbrace :: rest)) =
        some (fs, rest)) := by
  induction fuel using Nat.strong_induction_on with
  | _ fuel ih =>
  refine ⟨?_, ?_, ?_⟩
  · intro j rest hrest hfuel
    cases fuel with
    | zero => omega
    | succ f =>
      have hf : f < f + 1 := Nat.lt_succ_self f
      cases j with
      | null => rw [serialize]; rfl
      | bool bv => cases bv <;> (rw [serialize]; rfl)
      | num i =>
        rw [serialize] at hfuel ⊢
        unfold int_chars at hfuel ⊢
        by_cases hneg : i < 0
        · rw [if_pos hneg] at hfuel ⊢
          rw [List.cons_append]
          show (match parse_nat_digits (nat_chars i.natAbs ++ rest) with
            | some (n, r) => some (Json.num (-(n : Int)), r)
            | none => none) = some (Json.num i, rest)
          rw [parse_nat_digits_spec _ _ hrest]
          have hni : -((i.natAbs : Nat) : Int) = i := by omega
          exact congrArg (fun z => some (Json.num z, rest)) hni
        · rw [if_neg hneg] at hfuel ⊢
          rcases hnc : nat_chars i.natAbs with _ | ⟨c, t⟩
          · exact absurd hnc (nat_chars_ne_nil _)
          · have hd : is_digit_char c = true :=
              nat_chars_digits _ c (by rw [hnc]; exact List.mem_cons_self c t)
            rw [List.cons_append, parse_value_digit f c _ hd,
              ← List.cons_append, ← hnc, parse_nat_digits_spec _ _ hrest]
            have hni : ((i.natAbs : Nat) : Int) = i := by omega
            exact congrArg (fun z => some (Json.num z, rest)) hni
      | str s =>
        rw [serialize]
        rw [List.append_assoc, List.singleton_append, List.cons_append]
        show (match parse_string_body (escape_chars s.toList ++ '"' :: rest)
            with
          | some (sb, r) => some (Json.str (String.mk sb), r)
          | none => none) = some (Json.str s, rest)
        rw [parse_string_body_escape]
        rfl
      | arr xs =>
        rw [serialize] at hfuel ⊢
        rw [List.append_assoc, List.singleton_append, List.cons_append]
        have hlen : (ser_items xs).length + 2 ≤ f := by
          simp only [List.length_append, List.length_cons,
            List.length_nil] at hfuel
          omega
        show (match parse_arr_items f true (ser_items xs ++ (']' :: rest))
            with
          | some (vs, r) => some (Json.arr vs, r)
          | none => none) = some (Json.arr xs, rest)
        rw [(ih f hf).2.1 true xs rest (fun _ => rfl) hlen]
      | obj fs =>
        rw [serialize] at hfuel ⊢
        rw [List.append_assoc, List.singleton_append, List.cons_append]
        have hlen : (ser_members fs).length + 2 ≤ f := by
          simp only [List.length_append, List.length_cons,
            List.length_nil] at hfuel
          omega
        show (match parse_obj_items f true
            (ser_members fs ++ (rbrace :: rest)) with
          | some (ms, r) => some (Json.obj ms, r)
          | none => none) = some (Json.obj fs, rest)
        rw [(ih f hf).2.2 true fs rest (fun _ => rfl) hlen]
  · intro b xs rest hclose hfuel
    cases fuel with
    | zero => omega
    | succ f =>
      have hf : f < f + 1 := Nat.lt_succ_self f
      rcases xs with _ | ⟨x, _ | ⟨y, t2⟩⟩
      · rw [hclose rfl, ser_items, List.nil_append]
        rw [parse_arr_items_cons f true ']' rest (by decide),
          if_pos ⟨rfl, rfl⟩]
      · rw [ser_items] at hfuel ⊢
        rcases serialize_head_facts x with ⟨c, t, hct, hws, hnr, hnb⟩
        have hb1 : (serialize x).length + 1 ≤ f := by omega
        rw [hct, List.cons_append]
        rw [parse_arr_items_cons f b c _ hws]
        rw [if_neg (fun h => hnr h.2)]
        have harg : c :: (t ++ (']' :: rest)) =
            serialize x ++ (']' :: rest) := by rw [hct]; rfl
        rw [harg]
        rw [(ih f hf).1 x (']' :: rest) (delim_ok_cons _ _ (by decide)) hb1]
        rfl
      · rw [ser_items] at hfuel ⊢
        rcases serialize_head_facts x with ⟨c, t, hct, hws, hnr, hnb⟩
        simp only [List.append_assoc, List.singleton_append,
          List.cons_append, List.nil_append] at hfuel ⊢
        have hlens : (serialize x).length + 1 ≤ f ∧
            (ser_items (y :: t2)).length + 2 ≤ f := by
          simp only [List.length_append, List.length_cons] at hfuel
          omega
        rw [hct, List.cons_append]
        rw [parse_arr_items_cons f b c _ hws]
        rw [if_neg (fun h => hnr h.2)]
        have harg : c :: (t ++ (',' :: (ser_items (y :: t2) ++
            (']' :: rest)))) = serialize x ++ (',' :: (ser_items (y :: t2) ++
            (']' :: rest))) := by rw [hct]; rfl
        rw [harg]
        rw [(ih f hf).1 x (',' :: (ser_items (y :: t2) ++ (']' :: rest)))
          (delim_ok_cons _ _ (by decide)) hlens.1]
        show (match parse_arr_items f false
            (ser_items (y :: t2) ++ (']' :: rest)) with
          | some (vs, r3) => some (x :: vs, r3)
          | none => none) = some (x :: y :: t2, rest)
        rw [(ih f hf).2.1 false (y :: t2) rest
          (fun hab => absurd hab (by simp)) hlens.2]
  · intro b fs rest hclose hfuel
    cases fuel with
    | zero => omega
    | succ f =>
      have hf : f < f + 1 := Nat.lt_succ_self f
      rcases fs with _ | ⟨⟨k, v⟩, _ | ⟨⟨k2, v2⟩, t2⟩⟩
      · rw [hclose rfl, ser_members, List.nil_append]
        rw [parse_obj_items_cons f true rbrace rest (by decide),
          if_pos ⟨rfl, rfl⟩]
      · rw [ser_members] at hfuel ⊢
        simp only [List.append_assoc, List.cons_append,
          List.singleton_append, List.nil_append, List.length_append,
          List.length_cons] at hfuel ⊢
        have hb1 : (serialize v).length + 1 ≤ f := by omega
        rw [parse_obj_items_cons f b '"' _ (by decide)]
        rw [if_neg (fun h => absurd h.2 (by decide)), if_pos rfl]
        rw [parse_string_body_escape]
        show (match parse_value f (serialize v ++ (rbrace :: rest)) with
          | none => none
          | some (w, r3) =>
            match skip_ws r3 with
            | [] => none
            | d :: r4 =>
              if d = ',' then
                match parse_obj_items f false r4 with
                | some (ms, r5) =>
                  some ((String.mk k.toList, w) :: ms, r5)
                | none => none
              else if d = rbrace then
                some ([(String.mk k.toList, w)], r4)
              else none) = some ([(k, v)], rest)
        rw [(ih f hf).1 v (rbrace :: rest)
          (delim_ok_cons _ _ (by decide)) hb1]
        rfl
      · rw [ser_members] at hfuel ⊢
        simp only [List.append_assoc, List.cons_append,
          List.singleton_append, List.nil_append, List.length_append,
          List.length_cons] at hfuel ⊢
        have hlens : (serialize v).length + 1 ≤ f ∧
            (ser_members ((k2, v2) :: t2)).length + 2 ≤ f := by omega
        rw [parse_obj_items_cons f b '"' _ (by decide)]
        rw [if_neg (fun h => absurd h.2 (by decide)), if_pos rfl]
        rw [parse_string_body_escape]
        show (match parse_value f (serialize v ++ (',' ::
            (ser_members ((k2, v2) :: t2) ++ (rbrace :: rest)))) with
          | none => none
          | some (w, r3) =>
            match skip_ws r3 with
            | [] => none
            | d :: r4 =>
              if d = ',' then
                match parse_obj_items f false r4 with
                | some (ms, r5) =>
                  some ((String.mk k.toList, w) :: ms, r5)
                | none => none
              else if d = rbrace then
                some ([(String.mk k.toList, w)], r4)
              else none) = some ((k, v) :: (k2, v2) :: t2, rest)
        rw [(ih f hf).1 v (',' ::
            (ser_members ((k2, v2) :: t2) ++ (rbrace :: rest)))
          (delim_ok_cons _ _ (by decide)) hlens.1]
        show (match parse_obj_items f false
            (ser_members ((k2, v2) :: t2) ++ (rbrace :: rest)) with
          | some (ms, r5) => some ((String.mk k.toList, v) :: ms, r5)
          | none => none) = some ((k, v) :: (k2, v2) :: t2, rest)
        rw [(ih f hf).2.2 false ((k2, v2) :: t2) rest
          (fun hab => absurd hab (by simp)) hlens.2]
        rfl

/-- The loads model inverts the serializer. -/
theorem json_loads_serialize (j : Json) :
    json_loads (serialize j) = some j := by
  have h := (parse_serialize_round ((serialize j).length + 1)).1 j []
    (fun c hc => by simp at hc) le_rfl
  rw [List.append_nil] at h
  unfold json_loads
  rw [h]
  rfl

/-- Dropping while a predicate fails at the head is a no-op. -/
theorem dropWhile_eq_self_of_head (p : Char → Bool) (cs : List Char)
    (h : ∀ c, cs.head? = some c → p c = false) :
    cs.dropWhile p = cs := by
  cases cs with
  | nil => rfl
  | cons c l => simp [List.dropWhile_cons, h c rfl]

/-- Stripping is a no-op when neither end is whitespace. -/
theorem trim_chars_noop (cs : List Char)
    (h1 : ∀ c, cs.head? = some c → is_space c = false)
    (h2 : ∀ c, cs.getLast? = some c → is_space c = false) :
    trim_chars cs = cs := by
  unfold trim_chars drop_trailing_spaces
  rw [dropWhile_eq_self_of_head _ _ h1]
  rw [dropWhile_eq_self_of_head _ _
    (fun c hc => h2 c (by rwa [List.head?_reverse] at hc))]
  exact List.reverse_reverse cs

/-- A serialized object ends with the closing brace. -/
theorem serialize_obj_last (fs : List (String × Json)) :
    (serialize (Json.obj fs)).getLast? = some rbrace := by
  rw [serialize]
  exact List.getLast?_concat _

/-- A serialized object starts with the opening brace. -/
theorem serialize_obj_head (fs : List (String × Json)) :
    (serialize (Json.obj fs)).head? = some lbrace := by
  rw [serialize]
  rfl

/-- The leading-fence strip is a no-op on text that does not start with
a backtick character. -/
theorem strip_leading_fence_noop (c : Char) (l : List Char)
    (h : c ≠ Char.ofNat 96) :
    strip_leading_fence (c :: l) = c :: l := by
  unfold strip_leading_fence
  rw [if_neg ?_]
  show ¬ (fence_marker.isPrefixOf (c :: l) = true)
  have hb : (Char.ofNat 96 == c) = false := by
    simp [Ne.symm h]
  simp [fence_marker, List.isPrefixOf, hb]

/-- The trailing-fence strip is a no-op on text that does not end with
a backtick character. -/
theorem strip_trailing_fence_noop (l : List Char) (c : Char)
    (h : c ≠ Char.ofNat 96) :
    strip_trailing_fence (l ++ [c]) = l ++ [c] := by
  unfold strip_trailing_fence
  rw [if_neg ?_]
  show ¬ (fence_marker.isSuffixOf (l ++ [c]) = true)
  have hb : (Char.ofNat 96 == c) = false := by
    simp [Ne.symm h]
  show ¬ (fence_marker.reverse.isPrefixOf (l ++ [c]).reverse = true)
  rw [List.reverse_append]
  simp [fence_marker, List.isPrefixOf, hb]

/-- The extractor recovers a serialized object unchanged: stripping and
fence removal are no-ops and the parse succeeds. -/
theorem extractor_serialize_obj (fs : List (String × Json)) :
    gateway_json_from_text (some (serialize (Json.obj fs))) =
      some (Json.obj fs) := by
  have hhead := serialize_obj_head fs
  have hlast := serialize_obj_last fs
  have htrim : trim_chars (serialize (Json.obj fs)) =
      serialize (Json.obj fs) := by
    apply trim_chars_noop
    · intro c hc
      rw [hhead] at hc
      injection hc with hc
      subst hc
      decide
    · intro c hc
      rw [hlast] at hc
      injection hc with hc
      subst hc
      decide
  have hne : serialize (Json.obj fs) ≠ [] := by
    intro he
    rw [he] at hhead
    simp at hhead
  have hstrip1 : strip_leading_fence (serialize (Json.obj fs)) =
      serialize (Json.obj fs) := by
    rw [serialize]
    exact strip_leading_fence_noop lbrace _ (by decide)
  have hstrip2 : strip_trailing_fence (serialize (Json.obj fs)) =
      serialize (Json.obj fs) := by
    rw [serialize]
    exact strip_trailing_fence_noop _ rbrace (by decide)
  simp only [gateway_json_from_text]
  rw [htrim, if_neg hne, hstrip1, hstrip2, json_loads_serialize]


/-- Dropping trailing whitespace removes exactly a final newline when
the text before it does not end in whitespace. -/
theorem drop_trailing_newline (l : List Char)
    (h : ∀ c, l.getLast? = some c → is_space c = false) :
    drop_trailing_spaces (l ++ ['\n']) = l := by
  unfold drop_trailing_spaces
  rw [List.reverse_append]
  rw [show (['\n'] : List Char).reverse = ['\n'] from rfl]
  rw [List.singleton_append]
  rw [List.dropWhile_cons]
  rw [if_pos (show is_space '\n' = true from rfl)]
  rw [dropWhile_eq_self_of_head _ _
    (fun c hc => h c (by rwa [List.head?_reverse] at hc))]
  exact List.reverse_reverse l

/-- The extractor recovers a serialized object wrapped in json markdown
fences: the leading and trailing fence strips remove exactly the fence
markers and the same parse succeeds. -/
theorem extractor_fenced_obj (fs : List (String × Json)) :
    gateway_json_from_text
        (some (fence_wrap (serialize (Json.obj fs)))) =
      some (Json.obj fs) := by
  have hlast := serialize_obj_last fs
  have htrimF : trim_chars (fence_wrap (serialize (Json.obj fs))) =
      fence_wrap (serialize (Json.obj fs)) := by
    apply trim_chars_noop
    · intro c hc
      rw [show (fence_wrap (serialize (Json.obj fs))).head? =
        some (Char.ofNat 96) from rfl] at hc
      injection hc with hc
      subst hc
      decide
    · intro c hc
      rw [show fence_wrap (serialize (Json.obj fs)) =
        ("```json\n".toList ++ serialize (Json.obj fs)) ++
          "\n```".toList from rfl] at hc
      rw [List.getLast?_append_of_ne_nil _ (by decide)] at hc
      rw [show ("\n```".toList : List Char).getLast? =
        some (Char.ofNat 96) from rfl] at hc
      injection hc with hc
      subst hc
      decide
  have hneF : fence_wrap (serialize (Json.obj fs)) ≠ [] := by
    unfold fence_wrap
    simp
  have hs1 : strip_leading_fence (fence_wrap (serialize (Json.obj fs))) =
      serialize (Json.obj fs) ++ "\n```".toList := by
    rw [serialize]
    rfl
  have hsuf : fence_marker.isSuffixOf
      (serialize (Json.obj fs) ++ "\n```".toList) = true := by
    show fence_marker.reverse.isPrefixOf
      (serialize (Json.obj fs) ++ "\n```".toList).reverse = true
    rw [List.reverse_append]
    rfl
  have hs2 : strip_trailing_fence
      (serialize (Json.obj fs) ++ "\n```".toList) =
        serialize (Json.obj fs) := by
    unfold strip_trailing_fence
    rw [if_pos hsuf]
    have hlen : (serialize (Json.obj fs) ++ "\n```".toList).length - 3 =
        (serialize (Json.obj fs)).length + 1 := by
      simp only [List.length_append]
      rw [show ("\n```".toList : List Char).length = 4 from rfl]
      omega
    rw [hlen, List.take_append 1]
    rw [show ("\n```".toList : List Char).take 1 = ['\n'] from rfl]
    exact drop_trailing_newline _ (fun c hc => by
      rw [hlast] at hc
      injection hc with hc
      subst hc
      decide)
  simp only [gateway_json_from_text]
  rw [htrimF, if_neg hneF, hs1, hs2, json_loads_serialize]

/-- C7: for every JSON object, extracting the serialization of the
object returns the object itself, and extracting that serialization
wrapped in json markdown code fences (leading fence with language tag,
trailing fence) returns the same parsed object, unchanged from the
unfenced case. -/
theorem c7_extractor_round_trip (fs : List (String × Json)) :
    gateway_json_from_text (some (serialize (Json.obj fs))) =
      some (Json.obj fs) ∧
    gateway_json_from_text
        (some (fence_wrap (serialize (Json.obj fs)))) =
      some (Json.obj fs) :=
  ⟨extractor_serialize_obj fs, extractor_fenced_obj fs⟩
